import Mathlib

/-!
# Verification of the TeamOps bidirectional replication engine

This development embeds the replication core of the TeamOps repository
(`src/lib/sync.ts` and `src/lib/db-mappers.ts`) in Lean and proves the
specification's claims about it.

The remote store compares `updated_at` timestamps (ISO-8601 strings) and
`id` values (UUID strings) character by character; we model that order
executably on `List Char` so concrete replication scenarios evaluate by
`decide`.
-/

namespace TeamOps

/-- Strict lexicographic order on character lists: the order the remote
database uses on the ASCII timestamp / uuid strings of this schema. -/
def strLtList : List Char → List Char → Bool
  | [], [] => false
  | [], _ :: _ => true
  | _ :: _, [] => false
  | a :: as, b :: bs =>
      if a.toNat < b.toNat then true
      else if b.toNat < a.toNat then false
      else strLtList as bs

/-- Strict lexicographic order on strings. -/
def strLt (a b : String) : Bool := strLtList a.data b.data

theorem strLtList_cons (a b : Char) (as bs : List Char) :
    strLtList (a :: as) (b :: bs) =
      (if a.toNat < b.toNat then true
       else if b.toNat < a.toNat then false
       else strLtList as bs) := rfl

theorem charToNat_inj {a b : Char} (h : a.toNat = b.toNat) : a = b := by
  have h2 := congrArg Char.ofNat h
  rwa [Char.ofNat_toNat, Char.ofNat_toNat] at h2

theorem strLtList_irrefl (l : List Char) : strLtList l l = false := by
  induction l with
  | nil => rfl
  | cons a as ih => simp [strLtList, ih]

theorem strLtList_asymm {l1 l2 : List Char} (h : strLtList l1 l2 = true) :
    strLtList l2 l1 = false := by
  induction l1 generalizing l2 with
  | nil =>
    cases l2 with
    | nil => simp [strLtList] at h
    | cons b bs => simp [strLtList]
  | cons a as ih =>
    cases l2 with
    | nil => simp [strLtList] at h
    | cons b bs =>
      rw [strLtList_cons] at h ⊢
      rcases Nat.lt_trichotomy a.toNat b.toNat with hab | hab | hab
      · rw [if_neg (show ¬ b.toNat < a.toNat by omega), if_pos hab]
      · rw [if_neg (show ¬ a.toNat < b.toNat by omega),
          if_neg (show ¬ b.toNat < a.toNat by omega)] at h
        rw [if_neg (show ¬ b.toNat < a.toNat by omega),
          if_neg (show ¬ a.toNat < b.toNat by omega)]
        exact ih h
      · rw [if_neg (show ¬ a.toNat < b.toNat by omega), if_pos hab] at h
        exact absurd h (by decide)

theorem strLtList_trans {l1 l2 l3 : List Char} (h12 : strLtList l1 l2 = true)
    (h23 : strLtList l2 l3 = true) : strLtList l1 l3 = true := by
  induction l1 generalizing l2 l3 with
  | nil =>
    cases l3 with
    | nil =>
      cases l2 with
      | nil => exact h12
      | cons b bs => simp [strLtList] at h23
    | cons c cs => simp [strLtList]
  | cons a as ih =>
    cases l2 with
    | nil => simp [strLtList] at h12
    | cons b bs =>
      cases l3 with
      | nil => simp [strLtList] at h23
      | cons c cs =>
        rw [strLtList_cons] at h12 h23 ⊢
        rcases Nat.lt_trichotomy a.toNat b.toNat with hab | hab | hab
        · rcases Nat.lt_trichotomy b.toNat c.toNat with hbc | hbc | hbc
          · rw [if_pos (show a.toNat < c.toNat by omega)]
          · rw [if_pos (show a.toNat < c.toNat by omega)]
          · rw [if_neg (show ¬ b.toNat < c.toNat by omega), if_pos hbc] at h23
            exact absurd h23 (by decide)
        · rw [if_neg (show ¬ a.toNat < b.toNat by omega),
            if_neg (show ¬ b.toNat < a.toNat by omega)] at h12
          rcases Nat.lt_trichotomy b.toNat c.toNat with hbc | hbc | hbc
          · rw [if_pos (show a.toNat < c.toNat by omega)]
          · rw [if_neg (show ¬ b.toNat < c.toNat by omega),
              if_neg (show ¬ c.toNat < b.toNat by omega)] at h23
            rw [if_neg (show ¬ a.toNat < c.toNat by omega),
              if_neg (show ¬ c.toNat < a.toNat by omega)]
            exact ih h12 h23
          · rw [if_neg (show ¬ b.toNat < c.toNat by omega), if_pos hbc] at h23
            exact absurd h23 (by decide)
        · rw [if_neg (show ¬ a.toNat < b.toNat by omega), if_pos hab] at h12
          exact absurd h12 (by decide)

theorem strLtList_conn : ∀ {l1 l2 : List Char}, strLtList l1 l2 = false →
    strLtList l2 l1 = false → l1 = l2 := by
  intro l1
  induction l1 with
  | nil =>
    intro l2 h12 _
    cases l2 with
    | nil => rfl
    | cons b bs => simp [strLtList] at h12
  | cons a as ih =>
    intro l2 h12 h21
    cases l2 with
    | nil => simp [strLtList] at h21
    | cons b bs =>
      rw [strLtList_cons] at h12 h21
      rcases Nat.lt_trichotomy a.toNat b.toNat with hab | hab | hab
      · rw [if_pos hab] at h12
        exact absurd h12 (by decide)
      · rw [if_neg (show ¬ a.toNat < b.toNat by omega),
          if_neg (show ¬ b.toNat < a.toNat by omega)] at h12
        rw [if_neg (show ¬ b.toNat < a.toNat by omega),
          if_neg (show ¬ a.toNat < b.toNat by omega)] at h21
        have hc : a = b := charToNat_inj hab
        subst hc
        rw [ih h12 h21]
      · rw [if_pos hab] at h21
        exact absurd h21 (by decide)

theorem strDataInj : ∀ {a b : String}, a.data = b.data → a = b := by
  intro a b h
  cases a
  cases b
  exact congrArg String.mk h

theorem strLt_irrefl (a : String) : strLt a a = false := strLtList_irrefl _

theorem strLt_asymm {a b : String} (h : strLt a b = true) : strLt b a = false :=
  strLtList_asymm h

theorem strLt_trans {a b c : String} (h1 : strLt a b = true) (h2 : strLt b c = true) :
    strLt a c = true := strLtList_trans h1 h2

theorem strLt_conn {a b : String} (h1 : strLt a b = false) (h2 : strLt b a = false) :
    a = b := strDataInj (strLtList_conn h1 h2)

/-- Lexicographic strict order on `(updated_at, id)` pairs: the compound
cursor predicate and the dual-column sort order of the pull query. -/
def pairLt (a b : String × String) : Bool :=
  strLt a.1 b.1 || (a.1 == b.1 && strLt a.2 b.2)

/-- Reflexive closure of `pairLt`. -/
def pairLe (a b : String × String) : Bool :=
  pairLt a b || decide (a = b)

theorem pairLt_irrefl (a : String × String) : pairLt a a = false := by
  simp [pairLt, strLt_irrefl]

theorem pairLt_trans {a b c : String × String} (h1 : pairLt a b = true)
    (h2 : pairLt b c = true) : pairLt a c = true := by
  obtain ⟨a1, a2⟩ := a
  obtain ⟨b1, b2⟩ := b
  obtain ⟨c1, c2⟩ := c
  simp only [pairLt, Bool.or_eq_true, Bool.and_eq_true, beq_iff_eq] at h1 h2 ⊢
  rcases h1 with h1 | ⟨h1e, h1s⟩
  · rcases h2 with h2 | ⟨h2e, h2s⟩
    · exact Or.inl (strLt_trans h1 h2)
    · exact Or.inl (h2e ▸ h1)
  · rcases h2 with h2 | ⟨h2e, h2s⟩
    · exact Or.inl (h1e ▸ h2)
    · exact Or.inr ⟨h1e.trans h2e, strLt_trans h1s h2s⟩

theorem pairLt_asymm {a b : String × String} (h : pairLt a b = true) :
    pairLt b a = false := by
  cases hba : pairLt b a
  · rfl
  · have h2 := pairLt_trans h hba
    rw [pairLt_irrefl] at h2
    exact absurd h2 (by decide)

theorem pairLt_conn {a b : String × String} (h1 : pairLt a b = false)
    (h2 : pairLt b a = false) : a = b := by
  obtain ⟨a1, a2⟩ := a
  obtain ⟨b1, b2⟩ := b
  simp only [pairLt, Bool.or_eq_false_iff, Bool.and_eq_false_iff, beq_eq_false_iff_ne,
    ne_eq] at h1 h2
  obtain ⟨h1f, h1s⟩ := h1
  obtain ⟨h2f, h2s⟩ := h2
  have hfst : a1 = b1 := strLt_conn h1f h2f
  subst hfst
  have hsnd : a2 = b2 := by
    rcases h1s with h | h
    · exact absurd rfl h
    · rcases h2s with h' | h'
      · exact absurd rfl h'
      · exact strLt_conn h h'
  rw [hsnd]

theorem pairLe_refl (a : String × String) : pairLe a a = true := by
  simp [pairLe]

theorem pairLe_of_lt {a b : String × String} (h : pairLt a b = true) :
    pairLe a b = true := by
  simp [pairLe, h]

theorem pairLe_total (a b : String × String) :
    pairLe a b = true ∨ pairLe b a = true := by
  cases hab : pairLt a b
  · cases hba : pairLt b a
    · left
      have : a = b := pairLt_conn hab hba
      subst this
      exact pairLe_refl a
    · right
      exact pairLe_of_lt hba
  · left
    exact pairLe_of_lt hab

theorem pairLe_trans {a b c : String × String} (h1 : pairLe a b = true)
    (h2 : pairLe b c = true) : pairLe a c = true := by
  simp only [pairLe, Bool.or_eq_true, decide_eq_true_eq] at h1 h2 ⊢
  rcases h1 with h1 | h1
  · rcases h2 with h2 | h2
    · exact Or.inl (pairLt_trans h1 h2)
    · exact Or.inl (h2 ▸ h1)
  · rcases h2 with h2 | h2
    · exact Or.inl (h1 ▸ h2)
    · exact Or.inr (h1.trans h2)

theorem pairLt_of_le_of_ne {a b : String × String} (h : pairLe a b = true)
    (hne : a ≠ b) : pairLt a b = true := by
  simp only [pairLe, Bool.or_eq_true, decide_eq_true_eq] at h
  rcases h with h | h
  · exact h
  · exact absurd h hne

/-! ## Data model: rows and checkpoints (`sync.ts`) -/

/-- A pull checkpoint, `sync.ts` line 33: `{ updated_at: string, id: string }`. -/
structure Checkpoint where
  updated_at : String
  id : String
deriving DecidableEq, Repr

/-- A remote row as seen by the pagination logic: the pull query only
inspects the `updated_at` and `id` columns. -/
structure Row where
  updated_at : String
  id : String
deriving DecidableEq, Repr

def Row.key (r : Row) : String × String := (r.updated_at, r.id)

def Checkpoint.key (c : Checkpoint) : String × String := (c.updated_at, c.id)

/-- `new Date(0).toISOString()`, `sync.ts` line 34. -/
def epochISO : String := "1970-01-01T00:00:00.000Z"

/-- The minimum UUID constant, `sync.ts` line 35. -/
def minUUID : String := "00000000-0000-0000-0000-000000000000"

/-- `sync.ts` lines 34–35: a `null` checkpoint is replaced by the epoch
timestamp and the minimum UUID. -/
def effectiveCheckpoint : Option Checkpoint → Checkpoint
  | some c => c
  | none => ⟨epochISO, minUUID⟩

/-- The compound cursor predicate of the pull query, `sync.ts` line 48:
`updated_at.gt.T, and(updated_at.eq.T, id.gt.ID)`. -/
def afterCheckpoint (c : Checkpoint) (r : Row) : Bool :=
  strLt c.updated_at r.updated_at || (r.updated_at == c.updated_at && strLt c.id r.id)

theorem afterCheckpoint_eq_pairLt (c : Checkpoint) (r : Row) :
    afterCheckpoint c r = pairLt c.key r.key := by
  unfold afterCheckpoint pairLt Checkpoint.key Row.key
  by_cases h : r.updated_at = c.updated_at
  · simp [h]
  · have h1 : (r.updated_at == c.updated_at) = false := beq_eq_false_iff_ne.mpr h
    have h2 : (c.updated_at == r.updated_at) = false := beq_eq_false_iff_ne.mpr (Ne.symm h)
    rw [h1, h2]

/-- Sort order of the pull query, `sync.ts` lines 49–50:
ascending by `updated_at`, then ascending by `id`. -/
def rowLe (r s : Row) : Prop := pairLe r.key s.key = true

/-- Strict version of `rowLe`. -/
def rowLt (r s : Row) : Prop := pairLt r.key s.key = true

instance : DecidableRel rowLe := fun r s => by
  unfold rowLe
  infer_instance

instance : DecidableRel rowLt := fun r s => by
  unfold rowLt
  infer_instance

instance : IsTotal Row rowLe := ⟨fun r s => pairLe_total r.key s.key⟩

instance : IsTrans Row rowLe := ⟨fun _ _ _ => pairLe_trans⟩

/-! ## The pull query and the pull handler -/

/-- The rows qualifying at checkpoint `c`, in the order the remote
database returns them (the dual-column ascending sort). -/
def sortedQualifying (table : List Row) (c : Checkpoint) : List Row :=
  List.insertionSort rowLe (table.filter (afterCheckpoint c))

/-- Model of the remote query issued by `pullHandler`, `sync.ts` lines
45–51: filter by the compound cursor predicate, order ascending by
`(updated_at, id)`, cap at `limit`. -/
def queryRows (table : List Row) (c : Checkpoint) (limit : Nat) : List Row :=
  (sortedQualifying table c).take limit

/-- The row batch fetched by `pullHandler` at a (possibly `null`)
checkpoint. -/
def pullData (table : List Row) (cp : Option Checkpoint) (batchSize : Nat) : List Row :=
  queryRows table (effectiveCheckpoint cp) batchSize

/-- Checkpoint advance, `sync.ts` lines 62–69: keep the current checkpoint
when the batch is empty, otherwise take `(updated_at, id)` of the last
row of the batch. -/
def advanceCheckpoint (checkpoint : Option Checkpoint) (data : List Row) : Option Checkpoint :=
  match data.getLast? with
  | none => checkpoint
  | some lastRow => some ⟨lastRow.updated_at, lastRow.id⟩

/-- Return value of `pullHandler`, `sync.ts` lines 71–74. -/
structure PullResponse (δ : Type) where
  documents : List δ
  checkpoint : Option Checkpoint

/-- Success path of `pullHandler`, `sync.ts` lines 30–74: fetch a batch,
map every row through `mapToLocal`, advance the checkpoint. -/
def pullHandler {δ : Type} (mapToLocal : Row → δ) (table : List Row)
    (checkpoint : Option Checkpoint) (batchSize : Nat) : PullResponse δ :=
  let data := pullData table checkpoint batchSize
  { documents := data.map mapToLocal
    checkpoint := advanceCheckpoint checkpoint data }

/-- One pull round as seen by the checkpoint: fetch, then advance.
(`advanceCheckpoint` leaves the checkpoint unchanged on an empty batch.) -/
def pullStep (table : List Row) (batchSize : Nat) (cp : Option Checkpoint) :
    Option Checkpoint :=
  advanceCheckpoint cp (pullData table cp batchSize)

/-- The checkpoint after `n` successive pull rounds starting from `cp0`. -/
def checkpointSeq (table : List Row) (batchSize : Nat) (cp0 : Option Checkpoint) :
    Nat → Option Checkpoint
  | 0 => cp0
  | n + 1 => pullStep table batchSize (checkpointSeq table batchSize cp0 n)

/-- The successive non-empty batches of a full pull (each call resuming
from the checkpoint produced by the previous one), stopping at the first
empty batch or when `fuel` runs out. -/
def pullRounds (table : List Row) (batchSize : Nat) :
    Nat → Option Checkpoint → List (List Row)
  | 0, _ => []
  | fuel + 1, cp =>
    let data := pullData table cp batchSize
    if data = [] then []
    else data :: pullRounds table batchSize fuel (advanceCheckpoint cp data)

/-! ## Basic query facts -/

theorem mem_sortedQualifying {table : List Row} {c : Checkpoint} {r : Row} :
    r ∈ sortedQualifying table c ↔ r ∈ table ∧ afterCheckpoint c r = true := by
  unfold sortedQualifying
  rw [(List.perm_insertionSort rowLe _).mem_iff, List.mem_filter]

theorem sorted_sortedQualifying (table : List Row) (c : Checkpoint) :
    List.Sorted rowLe (sortedQualifying table c) :=
  List.sorted_insertionSort rowLe _

theorem queryRows_sublist (table : List Row) (c : Checkpoint) (n : Nat) :
    (queryRows table c n).Sublist (sortedQualifying table c) :=
  List.take_sublist n _

theorem mem_queryRows {table : List Row} {c : Checkpoint} {n : Nat} {r : Row}
    (h : r ∈ queryRows table c n) : r ∈ table ∧ afterCheckpoint c r = true :=
  mem_sortedQualifying.mp ((queryRows_sublist table c n).subset h)

/-! ## Strict ordering facts used by the pagination proof -/

theorem rowLt_irrefl (r : Row) : ¬ rowLt r r := by
  unfold rowLt
  rw [pairLt_irrefl]
  simp

theorem rowLt_asymm {r s : Row} (h : rowLt r s) : ¬ rowLt s r := by
  unfold rowLt at h ⊢
  rw [pairLt_asymm h]
  simp

theorem mem_of_getLast?_eq_some {α : Type} {l : List α} {y : α}
    (h : l.getLast? = some y) : y ∈ l := by
  cases l with
  | nil => simp at h
  | cons a as =>
    have hne : a :: as ≠ [] := List.cons_ne_nil a as
    rw [List.getLast?_eq_getLast (a :: as) hne] at h
    have hy := Option.some.inj h
    rw [← hy]
    exact List.getLast_mem hne

/-- With pairwise-distinct `(updated_at, id)` keys, the sorted qualifying
list is strictly sorted. -/
theorem sortedQualifying_pairwise_lt {table : List Row} {c : Checkpoint}
    (hkeys : table.Pairwise (fun r s => r.key ≠ s.key)) :
    (sortedQualifying table c).Pairwise rowLt := by
  have hfilter : (table.filter (afterCheckpoint c)).Pairwise (fun r s => r.key ≠ s.key) :=
    List.Pairwise.sublist (List.filter_sublist table) hkeys
  have hne : (sortedQualifying table c).Pairwise (fun r s => r.key ≠ s.key) :=
    ((List.perm_insertionSort rowLe _).pairwise_iff (fun h => Ne.symm h)).mpr hfilter
  exact ((sorted_sortedQualifying table c).and hne).imp
    (fun h => pairLt_of_le_of_ne h.1 h.2)

/-- In a strictly sorted list, every element is the last element or
strictly below it. -/
theorem pairwise_lt_getLast {l : List Row} (hpw : l.Pairwise rowLt) {y r : Row}
    (hlast : l.getLast? = some y) (hr : r ∈ l) : r = y ∨ rowLt r y := by
  have hne : l ≠ [] := by
    cases l with
    | nil => simp at hlast
    | cons a as => exact List.cons_ne_nil a as
  have hy : l.getLast hne = y := by
    rw [List.getLast?_eq_getLast l hne] at hlast
    exact Option.some.inj hlast
  have hsplit : l.dropLast ++ [l.getLast hne] = l := List.dropLast_append_getLast hne
  rw [← hsplit] at hr hpw
  rcases List.mem_append.mp hr with h | h
  · right
    have hlt := (List.pairwise_append.mp hpw).2.2 r h (l.getLast hne)
      (List.mem_singleton_self _)
    rwa [hy] at hlt
  · left
    rw [List.mem_singleton] at h
    rw [h, hy]

/-- Two strictly sorted lists with the same members are equal. -/
theorem eq_of_pairwise_lt_of_mem_iff :
    ∀ {l1 l2 : List Row}, l1.Pairwise rowLt → l2.Pairwise rowLt →
      (∀ r, r ∈ l1 ↔ r ∈ l2) → l1 = l2 := by
  intro l1
  induction l1 with
  | nil =>
    intro l2 _ _ hmem
    cases l2 with
    | nil => rfl
    | cons b bs => exact absurd ((hmem b).mpr (List.mem_cons_self b bs)) (List.not_mem_nil b)
  | cons a as ih =>
    intro l2 h1 h2 hmem
    cases l2 with
    | nil => exact absurd ((hmem a).mp (List.mem_cons_self a as)) (List.not_mem_nil a)
    | cons b bs =>
      have hab : a = b := by
        by_contra hne
        have ha2 : a ∈ b :: bs := (hmem a).mp (List.mem_cons_self a as)
        have hb1 : b ∈ a :: as := (hmem b).mpr (List.mem_cons_self b bs)
        have ha2' : a ∈ bs := by
          rcases List.mem_cons.mp ha2 with h | h
          · exact absurd h hne
          · exact h
        have hb1' : b ∈ as := by
          rcases List.mem_cons.mp hb1 with h | h
          · exact absurd h.symm hne
          · exact h
        exact rowLt_asymm ((List.pairwise_cons.mp h1).1 b hb1')
          ((List.pairwise_cons.mp h2).1 a ha2')
      subst hab
      have htail : ∀ r, r ∈ as ↔ r ∈ bs := by
        intro r
        constructor
        · intro hr
          have hlt : rowLt a r := (List.pairwise_cons.mp h1).1 r hr
          have hr2 : r ∈ a :: bs := (hmem r).mp (List.mem_cons_of_mem a hr)
          rcases List.mem_cons.mp hr2 with h | h
          · subst h
            exact absurd hlt (rowLt_irrefl r)
          · exact h
        · intro hr
          have hlt : rowLt a r := (List.pairwise_cons.mp h2).1 r hr
          have hr2 : r ∈ a :: as := (hmem r).mpr (List.mem_cons_of_mem a hr)
          rcases List.mem_cons.mp hr2 with h | h
          · subst h
            exact absurd hlt (rowLt_irrefl r)
          · exact h
      rw [ih (List.pairwise_cons.mp h1).2 (List.pairwise_cons.mp h2).2 htail]

/-- Resuming from the last row of a fetched batch leaves exactly the
dropped remainder of the sorted qualifying list: the tuple cursor makes
forward progress without skipping or repeating rows. -/
theorem sq_after_batch {table : List Row} {c : Checkpoint} {n : Nat} {y : Row}
    (hkeys : table.Pairwise (fun r s => r.key ≠ s.key))
    (hlast : ((sortedQualifying table c).take n).getLast? = some y) :
    sortedQualifying table ⟨y.updated_at, y.id⟩ = (sortedQualifying table c).drop n := by
  have hymem : y ∈ (sortedQualifying table c).take n := mem_of_getLast?_eq_some hlast
  have hyS : y ∈ sortedQualifying table c := (List.take_sublist n _).subset hymem
  have hyq := mem_sortedQualifying.mp hyS
  have hpwS : (sortedQualifying table c).Pairwise rowLt := sortedQualifying_pairwise_lt hkeys
  have hsplit : (sortedQualifying table c).take n ++ (sortedQualifying table c).drop n =
      sortedQualifying table c := List.take_append_drop n _
  have hpw2 : ((sortedQualifying table c).take n ++
      (sortedQualifying table c).drop n).Pairwise rowLt := by
    rw [hsplit]
    exact hpwS
  have hcross := (List.pairwise_append.mp hpw2).2.2
  have hkey : ∀ r : Row, afterCheckpoint ⟨y.updated_at, y.id⟩ r = pairLt y.key r.key := by
    intro r
    rw [afterCheckpoint_eq_pairLt]
    rfl
  apply eq_of_pairwise_lt_of_mem_iff (sortedQualifying_pairwise_lt hkeys)
    (List.Pairwise.sublist (List.drop_sublist n _) hpwS)
  intro r
  constructor
  · intro hr
    have hrq := mem_sortedQualifying.mp hr
    have hyr : rowLt y r := by
      unfold rowLt
      rw [← hkey r]
      exact hrq.2
    have hcq : afterCheckpoint c r = true := by
      rw [afterCheckpoint_eq_pairLt]
      have hcy : pairLt c.key y.key = true := by
        rw [← afterCheckpoint_eq_pairLt]
        exact hyq.2
      exact pairLt_trans hcy hyr
    have hrS : r ∈ sortedQualifying table c := mem_sortedQualifying.mpr ⟨hrq.1, hcq⟩
    rw [← hsplit] at hrS
    rcases List.mem_append.mp hrS with h | h
    · exfalso
      have hpwT : ((sortedQualifying table c).take n).Pairwise rowLt :=
        List.Pairwise.sublist (List.take_sublist n _) hpwS
      rcases pairwise_lt_getLast hpwT hlast h with heq | hlt
      · subst heq
        exact rowLt_irrefl r hyr
      · exact rowLt_asymm hlt hyr
    · exact h
  · intro hr
    have hrS : r ∈ sortedQualifying table c := (List.drop_sublist n _).subset hr
    have hrq := mem_sortedQualifying.mp hrS
    have hyr : rowLt y r := hcross y hymem r hr
    apply mem_sortedQualifying.mpr
    refine ⟨hrq.1, ?_⟩
    rw [hkey r]
    exact hyr

theorem take_ne_nil {α : Type} {l : List α} (hl : l ≠ []) {n : Nat} (hn : 1 ≤ n) :
    l.take n ≠ [] := by
  cases l with
  | nil => exact absurd rfl hl
  | cons a as =>
    cases n with
    | zero => omega
    | succ m => simp [List.take]

/-- A full pull with enough rounds retrieves exactly the sorted
qualifying list, concatenated over the successive batches. -/
theorem pullRounds_join {table : List Row} {b : Nat} (hb : 1 ≤ b)
    (hkeys : table.Pairwise (fun r s => r.key ≠ s.key)) :
    ∀ (fuel : Nat) (cp : Option Checkpoint),
      (sortedQualifying table (effectiveCheckpoint cp)).length ≤ fuel →
      (pullRounds table b fuel cp).flatten = sortedQualifying table (effectiveCheckpoint cp) := by
  intro fuel
  induction fuel with
  | zero =>
    intro cp hlen
    simp only [Nat.le_zero] at hlen
    have hS : sortedQualifying table (effectiveCheckpoint cp) = [] :=
      List.length_eq_zero.mp hlen
    simp [pullRounds, hS]
  | succ fuel ih =>
    intro cp hlen
    by_cases hS : sortedQualifying table (effectiveCheckpoint cp) = []
    · have hdata : pullData table cp b = [] := by
        show (sortedQualifying table (effectiveCheckpoint cp)).take b = []
        rw [hS]
        simp
      simp [pullRounds, hdata, hS]
    · have hdata_ne : pullData table cp b ≠ [] := take_ne_nil hS hb
      have hy := List.getLast?_eq_getLast (pullData table cp b) hdata_ne
      set y := (pullData table cp b).getLast hdata_ne with hydef
      have hadv : advanceCheckpoint cp (pullData table cp b) =
          some ⟨y.updated_at, y.id⟩ := by
        unfold advanceCheckpoint
        rw [hy]
      have hsq' : sortedQualifying table ⟨y.updated_at, y.id⟩ =
          (sortedQualifying table (effectiveCheckpoint cp)).drop b :=
        sq_after_batch hkeys hy
      have hroundseq : pullRounds table b (fuel + 1) cp =
          pullData table cp b ::
            pullRounds table b fuel (some ⟨y.updated_at, y.id⟩) := by
        show (if pullData table cp b = [] then []
          else pullData table cp b ::
            pullRounds table b fuel (advanceCheckpoint cp (pullData table cp b))) = _
        rw [if_neg hdata_ne, hadv]
      have hlen' : (sortedQualifying table
          (effectiveCheckpoint (some ⟨y.updated_at, y.id⟩))).length ≤ fuel := by
        show (sortedQualifying table ⟨y.updated_at, y.id⟩).length ≤ fuel
        rw [hsq', List.length_drop]
        omega
      have hih := ih (some ⟨y.updated_at, y.id⟩) hlen'
      rw [hroundseq, List.flatten_cons, hih]
      show (sortedQualifying table (effectiveCheckpoint cp)).take b ++
          sortedQualifying table ⟨y.updated_at, y.id⟩ = _
      rw [hsq']
      exact List.take_append_drop b _

/-! ## Claim C1: the pull query contract -/

/-- C1: for every checkpoint and batch size, the pull handler requests
exactly the rows satisfying `(updated_at > cp.updated_at) OR
(updated_at = cp.updated_at AND id > cp.id)`: every fetched row is a
qualifying table row, the batch is ordered ascending by
`(updated_at, id)` and capped at the batch size, a qualifying row is
left out only when the cap cut it (it then dominates every fetched row,
and nothing is left out while the batch is under the cap); a `null`
checkpoint starts from the epoch timestamp and the minimum UUID. -/
theorem C1_pull_query_contract (table : List Row) (cp : Option Checkpoint) (batchSize : Nat) :
    (∀ r ∈ pullData table cp batchSize,
        r ∈ table ∧ afterCheckpoint (effectiveCheckpoint cp) r = true)
    ∧ List.Sorted rowLe (pullData table cp batchSize)
    ∧ (pullData table cp batchSize).length ≤ batchSize
    ∧ (∀ r ∈ table, afterCheckpoint (effectiveCheckpoint cp) r = true →
        r ∉ pullData table cp batchSize →
        ∀ s ∈ pullData table cp batchSize, rowLe s r)
    ∧ ((pullData table cp batchSize).length < batchSize →
        ∀ r ∈ table, afterCheckpoint (effectiveCheckpoint cp) r = true →
        r ∈ pullData table cp batchSize)
    ∧ effectiveCheckpoint none = ⟨epochISO, minUUID⟩ := by
  set c := effectiveCheckpoint cp with hc
  refine ⟨?_, ?_, ?_, ?_, ?_, rfl⟩
  · intro r hr
    exact mem_queryRows hr
  · exact List.Pairwise.sublist (queryRows_sublist table c batchSize)
      (sorted_sortedQualifying table c)
  · have h1 := List.length_take batchSize (sortedQualifying table c)
    show (List.take batchSize (sortedQualifying table c)).length ≤ batchSize
    omega
  · intro r hrt hq hnotin s hs
    have hrS : r ∈ sortedQualifying table c := mem_sortedQualifying.mpr ⟨hrt, hq⟩
    have hpw : List.Pairwise rowLe
        (List.take batchSize (sortedQualifying table c) ++
          List.drop batchSize (sortedQualifying table c)) := by
      rw [List.take_append_drop]
      exact sorted_sortedQualifying table c
    rw [← List.take_append_drop batchSize (sortedQualifying table c)] at hrS
    rcases List.mem_append.mp hrS with h | h
    · exact absurd h hnotin
    · exact (List.pairwise_append.mp hpw).2.2 s hs r h
  · intro hlen r hrt hq
    have hS : r ∈ sortedQualifying table c := mem_sortedQualifying.mpr ⟨hrt, hq⟩
    have hlen' : (List.take batchSize (sortedQualifying table c)).length < batchSize := hlen
    have h1 := List.length_take batchSize (sortedQualifying table c)
    have hlt : (sortedQualifying table c).length < batchSize := by omega
    show r ∈ List.take batchSize (sortedQualifying table c)
    rw [List.take_of_length_le (Nat.le_of_lt hlt)]
    exact hS

def demoRow : Row := ⟨"2024-01-02T00:00:00Z", "b2"⟩

def demoTable : List Row := [⟨"2024-01-03T00:00:00Z", "c3"⟩, demoRow]

/-- Witness for C1: the contract evaluated at a concrete two-row table
pulled from a `null` checkpoint. -/
theorem C1_pull_query_contract_witness :
    demoRow ∈ pullData demoTable none 2
    ∧ demoRow ∈ demoTable
    ∧ afterCheckpoint (effectiveCheckpoint none) demoRow = true := by
  have h := (C1_pull_query_contract demoTable none 2).1 demoRow (by decide)
  exact ⟨by decide, h.1, h.2⟩

/-! ## Claim C3: the checkpoint advance -/

/-- C3: the checkpoint advance keeps the current checkpoint on an empty
batch and takes `{updated_at, id}` of the last row of a non-empty batch;
`pullHandler`'s returned checkpoint is exactly this advance of the one
it was called with. -/
theorem C3_checkpoint_advance {δ : Type} (mapToLocal : Row → δ) (table : List Row)
    (cp : Option Checkpoint) (batch : List Row) (batchSize : Nat) :
    (batch = [] → advanceCheckpoint cp batch = cp)
    ∧ (∀ h : batch ≠ [],
        advanceCheckpoint cp batch =
          some ⟨(batch.getLast h).updated_at, (batch.getLast h).id⟩)
    ∧ (pullHandler mapToLocal table cp batchSize).checkpoint =
        advanceCheckpoint cp (pullData table cp batchSize) := by
  refine ⟨?_, ?_, rfl⟩
  · intro h
    subst h
    rfl
  · intro h
    unfold advanceCheckpoint
    rw [List.getLast?_eq_getLast batch h]

/-- Witness for C3 on a concrete one-row batch. -/
theorem C3_checkpoint_advance_witness :
    advanceCheckpoint (some ⟨"2024-01-01T00:00:00Z", "a"⟩) [demoRow] =
      some ⟨demoRow.updated_at, demoRow.id⟩ := by
  have h := (C3_checkpoint_advance (fun r => r) demoTable
    (some ⟨"2024-01-01T00:00:00Z", "a"⟩) [demoRow] 1).2.1 (by decide)
  exact h

/-! ## Claim C7: no local filtering in the pull handler -/

/-- C7: the pull handler returns every fetched row mapped through
`toLocal`, with no local filtering or deduplication: the document list
is exactly the mapped row list, position by position, and has exactly
the same length as the fetched row list. -/
theorem C7_pull_no_local_filtering {δ : Type} (mapToLocal : Row → δ) (table : List Row)
    (cp : Option Checkpoint) (batchSize : Nat) :
    (pullHandler mapToLocal table cp batchSize).documents =
      (pullData table cp batchSize).map mapToLocal
    ∧ (pullHandler mapToLocal table cp batchSize).documents.length =
      (pullData table cp batchSize).length
    ∧ (∀ i : Nat, (pullHandler mapToLocal table cp batchSize).documents[i]? =
        ((pullData table cp batchSize)[i]?).map mapToLocal) := by
  refine ⟨rfl, by simp [pullHandler], fun i => by simp [pullHandler]⟩

/-! ## Claim C2: no skip under identical timestamps -/

/-- The shared timestamp of the tie-break pagination scenario. -/
def tieTs : String := "2024-01-01T00:00:00"

def tieRowA : Row := ⟨tieTs, "a"⟩

def tieRowB : Row := ⟨tieTs, "b"⟩

def tieRowC : Row := ⟨tieTs, "c"⟩

def tieRowD : Row := ⟨tieTs, "d"⟩

def tieRowE : Row := ⟨tieTs, "e"⟩

def tieTable : List Row := [tieRowA, tieRowB, tieRowC, tieRowD, tieRowE]

/-- C2: for rows sharing one `updatedAt` (distinct ids, reachable from the
epoch cursor), a full pull — each call resuming from the checkpoint
produced by the previous one — retrieves all rows exactly once, for any
positive batch size; in particular five same-timestamp rows `a..e` at
batch size 2 come back as `{a,b}`, `{c,d}`, `{e}` (a fourth call fetches
nothing) and the final checkpoint id is `e`. -/
theorem C2_no_skip_under_ties :
    (∀ (table : List Row) (t : String) (b fuel : Nat),
        1 ≤ b →
        (∀ r ∈ table, r.updated_at = t) →
        table.Pairwise (fun r s => r.id ≠ s.id) →
        (∀ r ∈ table, afterCheckpoint (effectiveCheckpoint none) r = true) →
        table.length ≤ fuel →
        (pullRounds table b fuel none).flatten.Perm table)
    ∧ pullRounds tieTable 2 4 none = [[tieRowA, tieRowB], [tieRowC, tieRowD], [tieRowE]]
    ∧ checkpointSeq tieTable 2 none 3 = some ⟨tieTs, "e"⟩ := by
  refine ⟨?_, by decide, by decide⟩
  intro table t b fuel hb _hts hids hq hlen
  have hkeys : table.Pairwise (fun r s => r.key ≠ s.key) :=
    hids.imp (fun h hk => h (congrArg Prod.snd hk))
  have hfilter : table.filter (afterCheckpoint (effectiveCheckpoint none)) = table :=
    List.filter_eq_self.mpr hq
  have hsq_perm : (sortedQualifying table (effectiveCheckpoint none)).Perm table := by
    unfold sortedQualifying
    rw [hfilter]
    exact List.perm_insertionSort rowLe table
  have hlen' : (sortedQualifying table (effectiveCheckpoint none)).length ≤ fuel := by
    rw [hsq_perm.length_eq]
    exact hlen
  rw [pullRounds_join hb hkeys fuel none hlen']
  exact hsq_perm

/-- Witness for C2: the no-skip theorem instantiated on the concrete
five-row tie table at batch size 2. -/
theorem C2_no_skip_under_ties_witness :
    (pullRounds tieTable 2 5 none).flatten.Perm tieTable :=
  C2_no_skip_under_ties.1 tieTable tieTs 2 5 (by decide) (by decide) (by decide)
    (by decide) (by decide)

/-! ## Claim C4: checkpoint monotonicity -/

theorem checkpoint_step_le (table : List Row) (b : Nat) (cp : Option Checkpoint) :
    pairLe (effectiveCheckpoint cp).key
      (effectiveCheckpoint (pullStep table b cp)).key = true := by
  unfold pullStep advanceCheckpoint
  cases hl : (pullData table cp b).getLast? with
  | none => exact pairLe_refl _
  | some y =>
    have hymem : y ∈ pullData table cp b := mem_of_getLast?_eq_some hl
    have hq := (mem_queryRows hymem).2
    show pairLe (effectiveCheckpoint cp).key (Checkpoint.key ⟨y.updated_at, y.id⟩) = true
    apply pairLe_of_lt
    have : pairLt (effectiveCheckpoint cp).key y.key = true := by
      rw [← afterCheckpoint_eq_pairLt]
      exact hq
    exact this

/-- C4: over any sequence of pull rounds against a remote table obeying
the query contract, the produced checkpoints are non-decreasing in
`(updatedAt, id)` lexicographic order: an earlier checkpoint is ≤ any
later one. -/
theorem C4_checkpoint_monotonicity (table : List Row) (b : Nat) (cp0 : Option Checkpoint)
    (i j : Nat) (hij : i ≤ j) :
    pairLe (effectiveCheckpoint (checkpointSeq table b cp0 i)).key
      (effectiveCheckpoint (checkpointSeq table b cp0 j)).key = true := by
  induction j with
  | zero =>
    have h0 : i = 0 := Nat.le_zero.mp hij
    subst h0
    exact pairLe_refl _
  | succ n ih =>
    rcases Nat.lt_or_ge i (n + 1) with h | h
    · exact pairLe_trans (ih (Nat.lt_succ_iff.mp h))
        (checkpoint_step_le table b (checkpointSeq table b cp0 n))
    · have hin : i = n + 1 := Nat.le_antisymm hij h
      subst hin
      exact pairLe_refl _

/-- Witness for C4 on the concrete tie table: the checkpoint after one
round precedes the checkpoint after three rounds. -/
theorem C4_checkpoint_monotonicity_witness :
    pairLe (effectiveCheckpoint (checkpointSeq tieTable 2 none 1)).key
      (effectiveCheckpoint (checkpointSeq tieTable 2 none 3)).key = true :=
  C4_checkpoint_monotonicity tieTable 2 none 1 3 (by decide)

/-! ## Document mappers (`db-mappers.ts`)

Local documents follow the RxDB schema shapes (`db/schemas`): optional
fields are `Option`s, the RxDB soft-delete marker `_deleted` is a
boolean. Remote rows follow the Supabase column shapes produced by the
`mapXToRemote` functions. JavaScript `x || undefined` on an optional
string treats the empty string as falsy; `orUndefined` models that. -/

/-- JS `x || undefined` for an optional string: the empty string is falsy
and becomes absent. -/
def orUndefined : Option String → Option String
  | some s => if s = "" then none else some s
  | none => none

inductive TeamRole
  | admin
  | member
deriving DecidableEq, Repr

structure TeamMember where
  userId : String
  role : TeamRole
deriving DecidableEq, Repr

inductive TaskStatus
  | todo
  | inProgress
  | done
deriving DecidableEq, Repr

inductive TaskPriority
  | low
  | medium
  | high
deriving DecidableEq, Repr

structure TaskAttachment where
  id : String
  name : String
  mimeType : String
  size : Nat
  data : String
  createdAt : String
deriving DecidableEq, Repr

/-- A task progress update. Its fields are passed through the mappers
verbatim inside a JSONB array (`updates`), so only its identity matters
here; the shape is reduced to its serialized payload. -/
structure TaskUpdate where
  payload : String
deriving DecidableEq, Repr

structure LocalUser where
  id : String
  email : String
  username : String
  name : String
  password : String
  phoneNumber : Option String
  createdAt : String
  _deleted : Bool
deriving DecidableEq, Repr

/-- The remote `users` row shape produced by `mapUserToRemote`: note it
has no password column at all. -/
structure RemoteUserRow where
  id : String
  email : String
  username : String
  name : String
  phone_number : Option String
  created_at : String
  deleted : Bool
deriving DecidableEq, Repr

/-- `db-mappers.ts` lines 8–17. The `password` line is commented out in
the source (never synced); `deleted` is `!!user._deleted`. -/
def mapUserToRemote (user : LocalUser) : RemoteUserRow :=
  { id := user.id
    email := user.email
    username := user.username
    name := user.name
    phone_number := user.phoneNumber
    created_at := user.createdAt
    deleted := user._deleted }

/-- `db-mappers.ts` lines 19–28: `password` becomes the fixed placeholder,
`phoneNumber` is `row.phone_number || undefined`. -/
def mapUserToLocal (row : RemoteUserRow) : LocalUser :=
  { id := row.id
    email := row.email
    username := row.username
    name := row.name
    password := "encrypted"
    phoneNumber := orUndefined row.phone_number
    createdAt := row.created_at
    _deleted := row.deleted }

structure LocalTeam where
  id : String
  name : String
  description : Option String
  members : List TeamMember
  createdAt : String
  updatedAt : Option String
  _deleted : Bool
deriving DecidableEq, Repr

/-- The remote `teams` row shape. `mapTeamToRemote` never sets
`updated_at` (the column is populated remotely), so it is `Option`al. -/
structure RemoteTeamRow where
  id : String
  name : String
  description : Option String
  members : List TeamMember
  created_at : String
  updated_at : Option String
  deleted : Bool
deriving DecidableEq, Repr

/-- `db-mappers.ts` lines 31–38: no `updated_at` field is produced. -/
def mapTeamToRemote (team : LocalTeam) : RemoteTeamRow :=
  { id := team.id
    name := team.name
    description := team.description
    members := team.members
    created_at := team.createdAt
    updated_at := none
    deleted := team._deleted }

/-- `db-mappers.ts` lines 40–48: `description` is
`row.description || undefined`; `row.members || []` is the identity on an
array-valued column; `updatedAt` is read from `row.updated_at` directly. -/
def mapTeamToLocal (row : RemoteTeamRow) : LocalTeam :=
  { id := row.id
    name := row.name
    description := orUndefined row.description
    members := row.members
    createdAt := row.created_at
    updatedAt := row.updated_at
    _deleted := row.deleted }

structure LocalTask where
  id : String
  title : String
  description : String
  status : TaskStatus
  priority : Option TaskPriority
  deadline : Option String
  completedAt : Option String
  teamId : String
  assigneeId : Option String
  attachments : Option (List TaskAttachment)
  updates : Option (List TaskUpdate)
  percentComplete : Option Nat
  createdAt : String
  updatedAt : String
  _deleted : Bool
deriving DecidableEq, Repr

structure RemoteTaskRow where
  id : String
  title : String
  description : String
  status : TaskStatus
  priority : Option TaskPriority
  deadline : Option String
  completed_at : Option String
  team_id : String
  assignee_id : Option String
  attachments : List TaskAttachment
  updates : List TaskUpdate
  percent_complete : Option Nat
  created_at : String
  updated_at : String
  deleted : Bool
deriving DecidableEq, Repr

/-- `db-mappers.ts` lines 51–67: `task.attachments || []` and
`task.updates || []` default absent lists to `[]` (a present empty array
is truthy and kept); `percent_complete` is `task.percentComplete ?? null`
(the nullish default, identity on the `Option`); `updated_at` is
transmitted. -/
def mapTaskToRemote (task : LocalTask) : RemoteTaskRow :=
  { id := task.id
    title := task.title
    description := task.description
    status := task.status
    priority := task.priority
    deadline := task.deadline
    completed_at := task.completedAt
    team_id := task.teamId
    assignee_id := task.assigneeId
    attachments := task.attachments.getD []
    updates := task.updates.getD []
    percent_complete := task.percentComplete
    created_at := task.createdAt
    updated_at := task.updatedAt
    deleted := task._deleted }

/-- `db-mappers.ts` lines 69–85: `row.description || ''` is the identity
on a string column; `row.priority || undefined` is the identity on the
enum column (no enum value is falsy); the optional string columns go
through `|| undefined`; `row.attachments || []` and `row.updates || []`
are the identity on array columns (a present `[]` is truthy);
`percentComplete` is `row.percent_complete ?? undefined`. -/
def mapTaskToLocal (row : RemoteTaskRow) : LocalTask :=
  { id := row.id
    title := row.title
    description := row.description
    status := row.status
    priority := row.priority
    deadline := orUndefined row.deadline
    completedAt := orUndefined row.completed_at
    teamId := row.team_id
    assigneeId := orUndefined row.assignee_id
    attachments := some row.attachments
    updates := some row.updates
    percentComplete := row.percent_complete
    createdAt := row.created_at
    updatedAt := row.updated_at
    _deleted := row.deleted }

theorem orUndefined_eq_self {o : Option String} (h : o ≠ some "") : orUndefined o = o := by
  cases o with
  | none => rfl
  | some s =>
    show (if s = "" then none else some s) = some s
    rw [if_neg]
    intro hs
    exact h (by rw [hs])

/-! ## Claim C5: mapper round trips -/

def cexUser : LocalUser :=
  { id := "u1"
    email := "u1@example.com"
    username := "u1"
    name := "User One"
    password := "secret"
    phoneNumber := some ""
    createdAt := "2024-01-01T00:00:00Z"
    _deleted := false }

def cexTeam : LocalTeam :=
  { id := "t1"
    name := "Team One"
    description := some "a team"
    members := [⟨"u1", TeamRole.admin⟩]
    createdAt := "2024-01-01T00:00:00Z"
    updatedAt := some "2024-02-01T00:00:00Z"
    _deleted := false }

/-- C5 counterexample: the round trip does not reproduce every
non-excluded field. A user whose `phoneNumber` is the empty string comes
back with no phone number (`|| undefined` treats `""` as falsy), and a
team carrying an `updatedAt` comes back without it (`mapTeamToRemote`
never transmits `updated_at`); neither field is an
intentionally-excluded credential. -/
theorem C5_roundtrip_counterexample :
    (mapUserToLocal (mapUserToRemote cexUser)).phoneNumber ≠ cexUser.phoneNumber
    ∧ (mapTeamToLocal (mapTeamToRemote cexTeam)).updatedAt ≠ cexTeam.updatedAt := by
  decide

/-- C5 (amended): the mapper pairs are near-inverse up to the JS
falsiness and defaulting conventions: provided no optional string field
holds the empty string, `toLocal (toRemote d)` reproduces every field of
`d` except that the user's password never reaches the remote row and
comes back as the fixed placeholder `encrypted`, the team's `updatedAt`
is not transmitted and comes back absent, and a task's absent
`attachments`/`updates` lists come back as present-but-empty defaults;
the soft-delete flag translates verbatim in both directions for all
three collections. -/
theorem C5_mapper_roundtrip_amended :
    (∀ u : LocalUser, u.phoneNumber ≠ some "" →
        mapUserToLocal (mapUserToRemote u) = { u with password := "encrypted" })
    ∧ (∀ (u : LocalUser) (p : String),
        mapUserToRemote { u with password := p } = mapUserToRemote u)
    ∧ (∀ t : LocalTeam, t.description ≠ some "" →
        mapTeamToLocal (mapTeamToRemote t) = { t with updatedAt := none })
    ∧ (∀ d : LocalTask, d.deadline ≠ some "" → d.completedAt ≠ some "" →
        d.assigneeId ≠ some "" →
        mapTaskToLocal (mapTaskToRemote d) =
          { d with attachments := some (d.attachments.getD [])
                   updates := some (d.updates.getD []) })
    ∧ (∀ u : LocalUser, (mapUserToRemote u).deleted = u._deleted)
    ∧ (∀ r : RemoteUserRow, (mapUserToLocal r)._deleted = r.deleted)
    ∧ (∀ t : LocalTeam, (mapTeamToRemote t).deleted = t._deleted)
    ∧ (∀ r : RemoteTeamRow, (mapTeamToLocal r)._deleted = r.deleted)
    ∧ (∀ d : LocalTask, (mapTaskToRemote d).deleted = d._deleted)
    ∧ (∀ r : RemoteTaskRow, (mapTaskToLocal r)._deleted = r.deleted) := by
  refine ⟨?_, fun u p => rfl, ?_, ?_, fun u => rfl, fun r => rfl, fun t => rfl,
    fun r => rfl, fun d => rfl, fun r => rfl⟩
  · intro u h
    unfold mapUserToLocal mapUserToRemote
    rw [orUndefined_eq_self h]
  · intro t h
    unfold mapTeamToLocal mapTeamToRemote
    rw [orUndefined_eq_self h]
  · intro d h1 h2 h3
    unfold mapTaskToLocal mapTaskToRemote
    rw [orUndefined_eq_self h1, orUndefined_eq_self h2, orUndefined_eq_self h3]

def okUser : LocalUser :=
  { id := "u2"
    email := "u2@example.com"
    username := "u2"
    name := "User Two"
    password := "hunter2"
    phoneNumber := some "5550100"
    createdAt := "2024-01-01T00:00:00Z"
    _deleted := false }

def okTeam : LocalTeam :=
  { id := "t2"
    name := "Team Two"
    description := none
    members := [⟨"u2", TeamRole.member⟩]
    createdAt := "2024-01-01T00:00:00Z"
    updatedAt := none
    _deleted := false }

def okTask : LocalTask :=
  { id := "task1"
    title := "Write report"
    description := ""
    status := TaskStatus.todo
    priority := some TaskPriority.high
    deadline := none
    completedAt := none
    teamId := "t2"
    assigneeId := some "u2"
    attachments := none
    updates := none
    percentComplete := some 0
    createdAt := "2024-01-01T00:00:00Z"
    updatedAt := "2024-01-02T00:00:00Z"
    _deleted := true }

/-- Witness for the amended C5 on concrete user, team and task documents. -/
theorem C5_mapper_roundtrip_amended_witness :
    mapUserToLocal (mapUserToRemote okUser) = { okUser with password := "encrypted" }
    ∧ mapTeamToLocal (mapTeamToRemote okTeam) = { okTeam with updatedAt := none }
    ∧ mapTaskToLocal (mapTaskToRemote okTask) =
        { okTask with attachments := some (okTask.attachments.getD [])
                      updates := some (okTask.updates.getD []) } :=
  ⟨C5_mapper_roundtrip_amended.1 okUser (by decide),
   C5_mapper_roundtrip_amended.2.2.1 okTeam (by decide),
   C5_mapper_roundtrip_amended.2.2.2.1 okTask (by decide) (by decide) (by decide)⟩

/-! ## Claim C8: the push handler -/

/-- One row of a push batch (RxDB `RxReplicationWriteToMasterRow`): the
push handler reads only `newDocumentState` (`sync.ts` line 105). -/
structure PushRow (α : Type) where
  assumedMasterState : Option α
  newDocumentState : α
deriving DecidableEq

/-- A batched remote upsert request as issued by the push handler
(`supabase.from(tableName).upsert(rows, onConflict)`). -/
structure UpsertCall (ρ : Type) where
  tableName : String
  rows : List ρ
  onConflict : String
deriving DecidableEq

/-- Success path of `pushHandler`, `sync.ts` lines 96–116: map each dirty
document through `toRemote`, issue one single upsert call batched over
all rows with conflict target `id`, and return an empty conflict list. -/
def pushHandler {α ρ : Type} (tableName : String) (mapToRemote : α → ρ)
    (rows : List (PushRow α)) : List (UpsertCall ρ) × List α :=
  ([{ tableName := tableName
      rows := rows.map fun r => mapToRemote r.newDocumentState
      onConflict := "id" }], [])

/-- C8: on success the push handler issues exactly one batched upsert
call, keyed by conflict target `id`, containing the `toRemote` image of
every dirty document (soft-deletes included: the mappers turn `_deleted`
into the `deleted` flag of an ordinary upsert row), and reports no
conflicts. -/
theorem C8_push_single_upsert_no_conflicts {α ρ : Type} (tableName : String)
    (mapToRemote : α → ρ) (rows : List (PushRow α)) :
    (pushHandler tableName mapToRemote rows).1 =
      [⟨tableName, rows.map (fun r => mapToRemote r.newDocumentState), "id"⟩]
    ∧ (pushHandler tableName mapToRemote rows).1.length = 1
    ∧ (pushHandler tableName mapToRemote rows).2 = []
    ∧ (∀ r ∈ rows, ∀ call ∈ (pushHandler tableName mapToRemote rows).1,
        mapToRemote r.newDocumentState ∈ call.rows)
    ∧ (∀ d : LocalTask, (mapTaskToRemote d).deleted = d._deleted)
    ∧ (∀ u : LocalUser, (mapUserToRemote u).deleted = u._deleted)
    ∧ (∀ t : LocalTeam, (mapTeamToRemote t).deleted = t._deleted) := by
  refine ⟨rfl, rfl, rfl, ?_, fun d => rfl, fun u => rfl, fun t => rfl⟩
  intro r hr call hcall
  have hc : call = ⟨tableName, rows.map (fun r => mapToRemote r.newDocumentState), "id"⟩ := by
    rcases List.mem_cons.mp hcall with h | h
    · exact h
    · exact absurd h (List.not_mem_nil call)
  subst hc
  exact List.mem_map.mpr ⟨r, hr, rfl⟩

def pushRows0 : List (PushRow LocalTask) := [⟨none, okTask⟩]

/-- Witness for C8: a concrete soft-deleted task appears in the rows of
the single upsert call the push handler issues. -/
theorem C8_push_single_upsert_no_conflicts_witness :
    mapTaskToRemote okTask ∈
      (⟨"tasks", [mapTaskToRemote okTask], "id"⟩ : UpsertCall RemoteTaskRow).rows := by
  have h := (C8_push_single_upsert_no_conflicts "tasks" mapTaskToRemote pushRows0).2.2.2.1
    ⟨none, okTask⟩ (by decide) ⟨"tasks", [mapTaskToRemote okTask], "id"⟩ (by decide)
  exact h

/-! ## Claim C6: offline error handling in the catch blocks -/

def listStartsWith : List Char → List Char → Bool
  | _, [] => true
  | [], _ :: _ => false
  | a :: as, b :: bs => a == b && listStartsWith as bs

def listHasSub : List Char → List Char → Bool
  | [], pat => pat.isEmpty
  | a :: as, pat => listStartsWith (a :: as) pat || listHasSub as pat

/-- JS `s.includes(pat)`. -/
def strHasSub (s pat : String) : Bool := listHasSub s.data pat.data

/-- A caught JS error as inspected by the handlers. -/
structure JsError where
  name : String
  message : String
  code : Option String
deriving DecidableEq, Repr

/-- The offline test of both catch blocks, `sync.ts` lines 77 and 118:
the message contains `Failed to fetch` or the error is a `TypeError`. -/
def isOfflineError (e : JsError) : Bool :=
  strHasSub e.message "Failed to fetch" || (e.name == "TypeError")

inductive LogLevel
  | debug
  | error
deriving DecidableEq, Repr

structure LogRecord where
  level : LogLevel
  message : String
deriving DecidableEq, Repr

/-- Host-visible window events dispatched by the sync engine. -/
inductive HostEvent
  | syncActive (table : String) (direction : String)
  | syncError (table : String) (message : String)
deriving DecidableEq, Repr

structure CatchOutcome where
  logs : List LogRecord
  events : List HostEvent
  rethrown : Bool
deriving DecidableEq, Repr

/-- Catch block of `pullHandler`, `sync.ts` lines 75–91: offline errors
get a debug-level log, other errors an error-level log; then — in both
cases — a `sync-error` event is dispatched and the error is re-thrown. -/
def pullCatch (tableName : String) (err : JsError) : CatchOutcome :=
  { logs :=
      if isOfflineError err then
        [⟨LogLevel.debug, "[Sync " ++ tableName ++ "] Offline - Pull skipped."⟩]
      else
        [⟨LogLevel.error, "Pull error for " ++ tableName⟩]
    events := [HostEvent.syncError tableName err.message]
    rethrown := true }

/-- Catch block of `pushHandler`, `sync.ts` lines 117–129: same shape as
the pull catch, with extra error-level hints for common remote rejection
codes; the `sync-error` dispatch and the re-throw are unconditional. -/
def pushCatch (tableName : String) (err : JsError) : CatchOutcome :=
  { logs :=
      if isOfflineError err then
        [⟨LogLevel.debug, "[Sync " ++ tableName ++ "] Offline - Push skipped."⟩]
      else
        [⟨LogLevel.error, "Push error for " ++ tableName⟩] ++
        (if err.code == some "42P01" then
          [⟨LogLevel.error, "Table " ++ tableName ++ " does not exist in Supabase."⟩]
        else []) ++
        (if err.code == some "401" || err.code == some "403" then
          [⟨LogLevel.error, "RLS Policy violation for " ++ tableName ++ ". Check Supabase policies."⟩]
        else [])
    events := [HostEvent.syncError tableName err.message]
    rethrown := true }

/-- The offline / network error Supabase surfaces when `fetch` fails. -/
def offlineErr : JsError := ⟨"TypeError", "Failed to fetch", none⟩

/-- C6 counterexample: on an `Unreachable` (offline) error, both handlers
still dispatch a host-visible `sync-error` event and re-throw — the
error is not absorbed, contrary to the claim. -/
theorem C6_offline_counterexample :
    isOfflineError offlineErr = true
    ∧ (pullCatch "tasks" offlineErr).events =
        [HostEvent.syncError "tasks" "Failed to fetch"]
    ∧ (pushCatch "tasks" offlineErr).events =
        [HostEvent.syncError "tasks" "Failed to fetch"]
    ∧ (pullCatch "tasks" offlineErr).rethrown = true
    ∧ (pushCatch "tasks" offlineErr).rethrown = true := by
  decide

/-- C6 (amended): on an `Unreachable` (offline) error both handlers log
only at debug severity (while any other error is logged at error
severity), but the host-visible `sync-error` event is still dispatched
and the error is still re-thrown in every case. -/
theorem C6_offline_handling_amended (tableName : String) (err : JsError) :
    (isOfflineError err = true →
      (pullCatch tableName err).logs.all (fun l => l.level == LogLevel.debug) = true
      ∧ (pushCatch tableName err).logs.all (fun l => l.level == LogLevel.debug) = true)
    ∧ (isOfflineError err = false →
      (pullCatch tableName err).logs.all (fun l => l.level == LogLevel.error) = true
      ∧ (pushCatch tableName err).logs.all (fun l => l.level == LogLevel.error) = true)
    ∧ (pullCatch tableName err).events = [HostEvent.syncError tableName err.message]
    ∧ (pushCatch tableName err).events = [HostEvent.syncError tableName err.message]
    ∧ (pullCatch tableName err).rethrown = true
    ∧ (pushCatch tableName err).rethrown = true := by
  refine ⟨?_, ?_, rfl, rfl, rfl, rfl⟩
  · intro h
    constructor
    · simp [pullCatch, h]
    · simp [pushCatch, h]
  · intro h
    constructor
    · simp [pullCatch, h]
    · simp only [pushCatch, h, Bool.false_eq_true, if_false]
      cases h1 : err.code == some "42P01" <;>
        cases h2 : (err.code == some "401" || err.code == some "403") <;>
          simp [h1, h2]

/-- Witness for the amended C6: the concrete offline error produces
debug-only logs, and a concrete rejection error produces error-level
logs; events are dispatched in both cases. -/
theorem C6_offline_handling_amended_witness :
    ((pullCatch "tasks" offlineErr).logs.all (fun l => l.level == LogLevel.debug) = true
      ∧ (pushCatch "tasks" offlineErr).logs.all (fun l => l.level == LogLevel.debug) = true)
    ∧ (pullCatch "tasks" ⟨"Error", "permission denied", some "403"⟩).logs.all
        (fun l => l.level == LogLevel.error) = true :=
  ⟨(C6_offline_handling_amended "tasks" offlineErr).1 (by decide),
   ((C6_offline_handling_amended "tasks" ⟨"Error", "permission denied", some "403"⟩).2.1
     (by decide)).1⟩

/-! ## Claim C9: chained cancellation -/

/-- The cleanup actions owned by a collection's replication. -/
inductive CleanupAction
  | removeChannel
  | clearPollTimer
  | stopReplication
deriving DecidableEq, Repr

/-- The original `replicationState.cancel`. -/
def baseCancel : List CleanupAction := [CleanupAction.stopReplication]

/-- First wrapping, `sync.ts` lines 181–185: remove the realtime channel,
then call the original cancel. -/
def wrapWithChannelCleanup (orig : List CleanupAction) : List CleanupAction :=
  CleanupAction.removeChannel :: orig

/-- Second wrapping, `sync.ts` lines 202–206: clear the polling interval,
then call the (already wrapped) cancel. -/
def wrapWithTimerCleanup (orig : List CleanupAction) : List CleanupAction :=
  CleanupAction.clearPollTimer :: orig

/-- The cancel finally installed on the replication state: both wrappings
layered over the original, in order. -/
def finalCancelActions : List CleanupAction :=
  wrapWithTimerCleanup (wrapWithChannelCleanup baseCancel)

/-- Resources of one collection's replication supervisor. -/
structure ReplState where
  channelOpen : Bool
  timerActive : Bool
  stopped : Bool
deriving DecidableEq, Repr

def applyCleanup (s : ReplState) : CleanupAction → ReplState
  | CleanupAction.removeChannel => { s with channelOpen := false }
  | CleanupAction.clearPollTimer => { s with timerActive := false }
  | CleanupAction.stopReplication => { s with stopped := true }

/-- Running the chained cancel executes its cleanup actions in order. -/
def runCancel (s : ReplState) : ReplState :=
  finalCancelActions.foldl applyCleanup s

/-- The polling fallback interval, `sync.ts` line 199: 30 seconds. -/
def pollIntervalMs : Nat := 30 * 1000

/-- A remote call the fallback timer can trigger. -/
inductive GatewayCall
  | reSyncPull
deriving DecidableEq, Repr

/-- One elapse of the fallback interval, `sync.ts` lines 195–199: a
cleared timer never fires; an active one re-syncs only while online and
not stopped. -/
def pollTick (s : ReplState) (online : Bool) : List GatewayCall :=
  if s.timerActive && online && !s.stopped then [GatewayCall.reSyncPull] else []

/-- C9: the layered cancel preserves both cleanups — the final cancel
performs the timer cleanup, then the channel cleanup, then the original
cancel — so after `cancel()` the channel is released, the poll timer is
cleared, replication is stopped, and an elapse of the (30-second)
fallback interval triggers no further remote calls. -/
theorem C9_cancel_chains_both_cleanups (s : ReplState) (online : Bool) :
    finalCancelActions =
      [CleanupAction.clearPollTimer, CleanupAction.removeChannel,
        CleanupAction.stopReplication]
    ∧ CleanupAction.removeChannel ∈ finalCancelActions
    ∧ CleanupAction.clearPollTimer ∈ finalCancelActions
    ∧ CleanupAction.stopReplication ∈ finalCancelActions
    ∧ (runCancel s).channelOpen = false
    ∧ (runCancel s).timerActive = false
    ∧ (runCancel s).stopped = true
    ∧ pollIntervalMs = 30000
    ∧ pollTick (runCancel s) online = [] := by
  refine ⟨rfl, by decide, by decide, by decide, rfl, rfl, rfl, rfl, ?_⟩
  show (if (runCancel s).timerActive && online && !(runCancel s).stopped
    then [GatewayCall.reSyncPull] else []) = []
  have ht : (runCancel s).timerActive = false := rfl
  rw [ht]
  simp

/-! ## Claim C10: the realtime handler -/

inductive RtEventType
  | INSERT
  | UPDATE
  | DELETE
deriving DecidableEq, Repr

/-- A Supabase realtime `postgres_changes` payload, as inspected by the
handler: its `errors` field (any non-null value counts as errors), the
event type, and the new row. -/
structure RtPayload where
  errors : Option (List String)
  eventType : RtEventType
  newRow : Row
deriving DecidableEq, Repr

/-- The single-document checkpoint hint a realtime event carries: only an
`updated_at` field, no `id` component (unlike the pagination
`Checkpoint`). -/
structure RealtimeHint where
  updated_at : String
deriving DecidableEq, Repr

/-- What the handler pushes into the pull apply stream. -/
structure StreamEmission (δ : Type) where
  documents : List δ
  checkpoint : RealtimeHint

/-- Realtime channel callback, `sync.ts` lines 141–154: error payloads
emit nothing; `INSERT`/`UPDATE` emit one mapped document with a hint of
`payload.new.updated_at || now`; `DELETE` is ignored (soft deletes
arrive as updates). -/
def realtimeHandler {δ : Type} (mapToLocal : Row → δ) (payload : RtPayload)
    (now : String) : Option (StreamEmission δ) :=
  if payload.errors.isSome then none
  else
    match payload.eventType with
    | RtEventType.INSERT =>
        some ⟨[mapToLocal payload.newRow],
          ⟨if payload.newRow.updated_at = "" then now else payload.newRow.updated_at⟩⟩
    | RtEventType.UPDATE =>
        some ⟨[mapToLocal payload.newRow],
          ⟨if payload.newRow.updated_at = "" then now else payload.newRow.updated_at⟩⟩
    | RtEventType.DELETE => none

/-- C10: the realtime handler emits exactly one mapped document if and
only if the payload has no errors and is an `INSERT` or `UPDATE`
(`DELETE` and error payloads emit nothing), and the accompanying
single-document checkpoint hint holds only the row's `updated_at` — or
the current time when that is empty — with no id component (hints are
fully determined by `updated_at` alone). -/
theorem C10_realtime_emission {δ : Type} (mapToLocal : Row → δ) (payload : RtPayload)
    (now : String) :
    ((realtimeHandler mapToLocal payload now).isSome ↔
      payload.errors = none ∧
        (payload.eventType = RtEventType.INSERT ∨ payload.eventType = RtEventType.UPDATE))
    ∧ (∀ e, realtimeHandler mapToLocal payload now = some e →
        e.documents = [mapToLocal payload.newRow]
        ∧ e.checkpoint = ⟨if payload.newRow.updated_at = "" then now
            else payload.newRow.updated_at⟩)
    ∧ (∀ h1 h2 : RealtimeHint, h1.updated_at = h2.updated_at → h1 = h2) := by
  refine ⟨?_, ?_, ?_⟩
  · cases herr : payload.errors with
    | some es =>
      simp [realtimeHandler, herr]
    | none =>
      cases hev : payload.eventType <;> simp [realtimeHandler, herr, hev]
  · intro e he
    cases herr : payload.errors with
    | some es =>
      rw [realtimeHandler, herr] at he
      simp at he
    | none =>
      cases hev : payload.eventType <;>
        rw [realtimeHandler, herr] at he <;> simp [hev] at he <;>
          simp [← he]
  · intro h1 h2 h
    cases h1
    cases h2
    simpa using h

/-- Witness for C10 on a concrete update payload. -/
theorem C10_realtime_emission_witness :
    (realtimeHandler (fun r => r) ⟨none, RtEventType.UPDATE, demoRow⟩ "now").isSome = true
    ∧ (⟨"2024-01-02T00:00:00Z"⟩ : RealtimeHint) = ⟨"2024-01-02T00:00:00Z"⟩ :=
  ⟨((C10_realtime_emission (fun r => r) ⟨none, RtEventType.UPDATE, demoRow⟩ "now").1.mpr
      ⟨rfl, Or.inr rfl⟩),
   (C10_realtime_emission (fun r => r) ⟨none, RtEventType.UPDATE, demoRow⟩ "now").2.2
     ⟨"2024-01-02T00:00:00Z"⟩ ⟨"2024-01-02T00:00:00Z"⟩ rfl⟩

end TeamOps
